import Mathlib

/-!
Verification of the radio-metadata service (src/app.py, src/old.py).

The development shallowly embeds the pure logic of the two Python modules:

* the title parser `extract_artist_and_song` (src/app.py lines 179-185),
* the ICY stream-title reader `get_mp3_stream_title` (src/app.py lines 143-176),
  with the HTTP response modelled as a header list plus a byte list and the
  unbounded `while True` loop modelled with explicit fuel,
* the change/throttle decision and database updates of `get_radio_info`
  (src/app.py lines 259-320),
* the history query `get_radio_history` (src/old.py lines 224-247),
* the monitor-starting endpoint `start_monitoring` (src/old.py lines 169-191),
* the one-shot endpoints `get_stream_title` and `get_stream_details`
  (src/app.py lines 205-256), with the external iTunes lookups passed in as
  function parameters.

Machine integers do not occur (Python integers are unbounded); timestamps are
modelled as `Int` (seconds), bytes as `Nat`.
-/

/-! ## Python string primitives -/

/-- The whitespace characters removed by Python `str.strip()` (ASCII part:
space, tab, newline, carriage return, vertical tab, form feed). -/
def pyIsSpace (c : Char) : Bool :=
  c == ' ' || c == '\t' || c == '\n' || c == '\r' || c == Char.ofNat 11 || c == Char.ofNat 12

/-- Remove trailing characters satisfying `p`. -/
def dropTrailingWhile (p : α → Bool) (l : List α) : List α :=
  (l.reverse.dropWhile p).reverse

/-- Python `str.strip(chars)`: remove all leading and trailing characters
satisfying `p`. -/
def pyStripWith (p : α → Bool) (l : List α) : List α :=
  dropTrailingWhile p (l.dropWhile p)

/-- The apostrophe character (written via its code point, 39). -/
def apos : Char := Char.ofNat 39

/-- Python `title.strip("'")` from `extract_artist_and_song`: removes every
leading and every trailing apostrophe. -/
def stripApostrophes (s : String) : String :=
  String.mk (pyStripWith (fun c => c == apos) s.data)

/-- Python `str.strip()` with no argument: trim surrounding whitespace. -/
def pyStrip (s : String) : String :=
  String.mk (pyStripWith pyIsSpace s.data)

/-- Python `haystack.find(pat)` on sequences: index of the first occurrence of
`pat`, if any (`some 0` for an empty pattern, as in Python). -/
def firstOccur [BEq α] (pat : List α) : List α → Option Nat
  | [] => if pat.isEmpty then some 0 else none
  | a :: rest =>
    if pat.isPrefixOf (a :: rest) then some 0
    else (firstOccur pat rest).map (· + 1)

/-- The separator `" - "` that `extract_artist_and_song` in src/app.py splits on. -/
def sepChars : List Char := [' ', '-', ' ']

/-! ## Title parser (src/app.py lines 179-185)

```python
def extract_artist_and_song(title: str) -> Tuple[str, str]:
    title = title.strip("'")
    if " - " in title:
        artist, song = title.split(" - ", 1)
        return artist.strip(), song.strip()
    else:
        return "", title.strip()
```
`x in title` tests substring containment and `split(" - ", 1)` splits at the
first occurrence, both rendered through `firstOccur`. -/
def extract_artist_and_song (title : String) : String × String :=
  let t := stripApostrophes title
  match firstOccur sepChars t.data with
  | some i =>
      (pyStrip (String.mk (t.data.take i)), pyStrip (String.mk (t.data.drop (i + 3))))
  | none => ("", pyStrip t)

/-- Spec-side scanner: walk the text left to right and split at the first
occurrence of the separator `" - "` (space-hyphen-space), per the wording of
spec section 4.2.  `acc` holds the already-scanned characters reversed. -/
def splitSepScan (acc : List Char) : List Char → Option (List Char × List Char)
  | [] => none
  | c :: rest =>
    if sepChars.isPrefixOf (c :: rest) then some (acc.reverse, (c :: rest).drop 3)
    else splitSepScan (c :: acc) rest

/-- Spec-side parse step of section 4.2: split on the first `" - "` trimming
whitespace from both parts, or return an empty artist and the whole trimmed
text when no separator occurs. -/
def parseTitleSpec (text : String) : String × String :=
  match splitSepScan [] text.data with
  | some (a, b) => (pyStrip (String.mk a), pyStrip (String.mk b))
  | none => ("", pyStrip text)

theorem splitSepScan_eq (l acc : List Char) :
    splitSepScan acc l =
      (firstOccur sepChars l).map (fun i => (acc.reverse ++ l.take i, l.drop (i + 3))) := by
  induction l generalizing acc with
  | nil => simp [splitSepScan, firstOccur, sepChars]
  | cons c rest ih =>
    by_cases h : sepChars.isPrefixOf (c :: rest)
    · simp [splitSepScan, firstOccur, h]
    · simp only [splitSepScan, firstOccur, h, if_false, ih]
      cases firstOccur sepChars rest with
      | none => simp
      | some j =>
        simp [List.take_succ_cons, List.drop_succ_cons, List.reverse_cons,
          List.append_assoc]

/-- C3. The parser splits on the first `" - "` of the (apostrophe-stripped)
text, trimming whitespace from both parts, and falls back to an empty artist
with the whole trimmed text otherwise; stated as a refinement against the
independently written spec-side scanner `parseTitleSpec`.  Totality ("never
fails") is inherent in the function type. -/
theorem C3_split_on_first_separator (title : String) :
    extract_artist_and_song title = parseTitleSpec (stripApostrophes title) := by
  unfold extract_artist_and_song parseTitleSpec
  rw [splitSepScan_eq]
  cases h : firstOccur sepChars (stripApostrophes title).data <;> simp [h]

theorem list_dropWhile_replicate {p : α → Bool} {a : α} (h : p a = true) (m : Nat)
    (l : List α) : List.dropWhile p (List.replicate m a ++ l) = List.dropWhile p l := by
  induction m with
  | zero => simp
  | succ k ih => simp [List.replicate_succ, List.dropWhile_cons, h, ih]

theorem dropTrailingWhile_append_replicate {p : α → Bool} {a : α} (h : p a = true)
    (n : Nat) (x : List α) :
    dropTrailingWhile p (x ++ List.replicate n a) = dropTrailingWhile p x := by
  unfold dropTrailingWhile
  rw [List.reverse_append, List.reverse_replicate, list_dropWhile_replicate h]

theorem dropWhile_apos_replicate (m : Nat) (l : List Char) :
    List.dropWhile (fun c => c == apos) (List.replicate m apos ++ l)
      = List.dropWhile (fun c => c == apos) l :=
  @list_dropWhile_replicate Char (fun c => c == apos) apos (by decide) m l

theorem dropTrailing_apos_replicate (n : Nat) (x : List Char) :
    dropTrailingWhile (fun c => c == apos) (x ++ List.replicate n apos)
      = dropTrailingWhile (fun c => c == apos) x :=
  @dropTrailingWhile_append_replicate Char (fun c => c == apos) apos (by decide) n x

theorem stripApos_surround (m n : Nat) (l : List Char) :
    pyStripWith (fun c => c == apos) (List.replicate m apos ++ l ++ List.replicate n apos)
      = pyStripWith (fun c => c == apos) l := by
  unfold pyStripWith
  rw [List.append_assoc, dropWhile_apos_replicate]
  by_cases h : List.dropWhile (fun c => c == apos) l = []
  · have h2 : List.dropWhile (fun c => c == apos) (l ++ List.replicate n apos) = [] := by
      rw [List.dropWhile_append, if_pos (by simp [h])]
      have h3 := dropWhile_apos_replicate n []
      rw [List.append_nil] at h3
      exact h3.trans rfl
    rw [h2, h]
  · rw [List.dropWhile_append, if_neg (by simp [h]), dropTrailing_apos_replicate]

/-- Concrete five-character title: two apostrophes, `A`, two apostrophes. -/
def titleTwoAposEx : String := String.mk [apos, apos, 'A', apos, apos]

/-- The value `extract_artist_and_song titleTwoAposEx` would produce if the
parser removed exactly one surrounding pair of apostrophes. -/
def titleOneAposEx : String := String.mk [apos, 'A', apos]

/-- C9 counterexample.  On a title wrapped in two pairs of apostrophes the
parser strips all of them: the result is `("", "A")`, not the single-pair
residue `("", String.mk [apos, A, apos])` the claim dictates; in particular a
title beginning with two apostrophes retains none. -/
theorem C9_counterexample_strip_all_apostrophes :
    extract_artist_and_song titleTwoAposEx = ("", "A")
      ∧ extract_artist_and_song titleTwoAposEx ≠ ("", titleOneAposEx) := by
  constructor
  · decide
  · decide

/-- C9 (amended).  `title.strip("'")` removes every leading and every trailing
apostrophe, so the parse result is invariant under surrounding a title with any
number of apostrophes on either side (not just one pair). -/
theorem C9_amended_strip_all_surrounding_apostrophes (m n : Nat) (t : String) :
    extract_artist_and_song
        (String.mk (List.replicate m apos ++ t.data ++ List.replicate n apos))
      = extract_artist_and_song t := by
  have h : stripApostrophes
      (String.mk (List.replicate m apos ++ t.data ++ List.replicate n apos))
      = stripApostrophes t := by
    unfold stripApostrophes
    have hd : (String.mk (List.replicate m apos ++ t.data ++ List.replicate n apos)).data
        = List.replicate m apos ++ t.data ++ List.replicate n apos := rfl
    rw [hd, stripApos_surround]
  unfold extract_artist_and_song
  rw [h]

/-! ## Lossy UTF-8 decoding

Model of Python `bytes.decode("utf-8", errors="replace")` as used in
`get_mp3_stream_title`: standard UTF-8 with shortest-form, surrogate and range
checks; every maximal invalid subpart is replaced by one U+FFFD and decoding
resumes at the offending byte, so the decode never fails. -/

/-- U+FFFD, the replacement character. -/
def replacementChar : Char := Char.ofNat 0xFFFD

/-- The `;` character (code point 59). -/
def semicolonChar : Char := Char.ofNat 59

/-- A UTF-8 continuation byte. -/
def isContByte (b : Nat) : Bool := 0x80 ≤ b && b ≤ 0xBF

/-- Lower bound for the first continuation byte (shortest-form rule). -/
def cont1Lo (b0 : Nat) : Nat :=
  if b0 == 0xE0 then 0xA0 else if b0 == 0xF0 then 0x90 else 0x80

/-- Upper bound for the first continuation byte (surrogate and range rules). -/
def cont1Hi (b0 : Nat) : Nat :=
  if b0 == 0xED then 0x9F else if b0 == 0xF4 then 0x8F else 0xBF

/-- Validity of the first continuation byte after lead byte `b0`. -/
def cont1Ok (b0 b1 : Nat) : Bool := cont1Lo b0 ≤ b1 && b1 ≤ cont1Hi b0

theorem toNat_charOfNat_of_valid {n : Nat} (h : n.isValidChar) :
    (Char.ofNat n).toNat = n := by
  simp [Char.ofNat, h, Char.ofNatAux, Char.toNat, UInt32.toNat]

theorem toNat_charOfNat_of_invalid {n : Nat} (h : ¬ n.isValidChar) :
    (Char.ofNat n).toNat = 0 := by
  simp [Char.ofNat, h, Char.toNat, UInt32.toNat]

theorem charOfNat_ne_semicolon {n : Nat} (h : n ≠ 59) :
    Char.ofNat n ≠ semicolonChar := by
  intro heq
  have hc := congrArg Char.toNat heq
  by_cases hv : n.isValidChar
  · rw [toNat_charOfNat_of_valid hv] at hc
    have h59 : semicolonChar.toNat = 59 := by decide
    exact h (hc.trans h59)
  · rw [toNat_charOfNat_of_invalid hv] at hc
    have h59 : semicolonChar.toNat = 59 := by decide
    rw [h59] at hc
    exact absurd hc (by decide)

theorem code2_ne_semi (b0 b1 : Nat) (h : (0xC2 ≤ b0 && b0 ≤ 0xDF) = true) :
    (b0 - 0xC0) * 0x40 + (b1 - 0x80) ≠ 59 := by
  simp at h; omega

theorem code3_ne_semi (b0 b1 b2 : Nat) (h0 : (0xE0 ≤ b0 && b0 ≤ 0xEF) = true)
    (h1 : cont1Ok b0 b1 = true) :
    (b0 - 0xE0) * 0x1000 + (b1 - 0x80) * 0x40 + (b2 - 0x80) ≠ 59 := by
  simp at h0
  unfold cont1Ok cont1Lo cont1Hi at h1
  by_cases he : b0 = 0xE0
  · subst he; simp at h1; omega
  · omega

theorem code4_ne_semi (b0 b1 b2 b3 : Nat) (h0 : (0xF0 ≤ b0 && b0 ≤ 0xF4) = true)
    (h1 : cont1Ok b0 b1 = true) :
    (b0 - 0xF0) * 0x40000 + (b1 - 0x80) * 0x1000 + (b2 - 0x80) * 0x40 + (b3 - 0x80) ≠ 59 := by
  simp at h0
  unfold cont1Ok cont1Lo cont1Hi at h1
  by_cases hf : b0 = 0xF0
  · subst hf; simp at h1; omega
  · omega

def utf8Step2 (b0 : Nat) (rest : List Nat) : Char × List Nat :=
  match rest with
  | [] => (replacementChar, [])
  | b1 :: rest1 =>
    if isContByte b1 then (Char.ofNat ((b0 - 0xC0) * 0x40 + (b1 - 0x80)), rest1)
    else (replacementChar, b1 :: rest1)

def utf8Step3 (b0 : Nat) (rest : List Nat) : Char × List Nat :=
  match rest with
  | [] => (replacementChar, [])
  | [b1] =>
    if cont1Ok b0 b1 then (replacementChar, []) else (replacementChar, [b1])
  | b1 :: b2 :: rest2 =>
    if cont1Ok b0 b1 then
      if isContByte b2 then
        (Char.ofNat ((b0 - 0xE0) * 0x1000 + (b1 - 0x80) * 0x40 + (b2 - 0x80)), rest2)
      else (replacementChar, b2 :: rest2)
    else (replacementChar, b1 :: b2 :: rest2)

def utf8Step4 (b0 : Nat) (rest : List Nat) : Char × List Nat :=
  match rest with
  | [] => (replacementChar, [])
  | [b1] =>
    if cont1Ok b0 b1 then (replacementChar, []) else (replacementChar, [b1])
  | [b1, b2] =>
    if cont1Ok b0 b1 then
      if isContByte b2 then (replacementChar, []) else (replacementChar, [b2])
    else (replacementChar, [b1, b2])
  | b1 :: b2 :: b3 :: rest3 =>
    if cont1Ok b0 b1 then
      if isContByte b2 then
        if isContByte b3 then
          (Char.ofNat ((b0 - 0xF0) * 0x40000 + (b1 - 0x80) * 0x1000
              + (b2 - 0x80) * 0x40 + (b3 - 0x80)), rest3)
        else (replacementChar, b3 :: rest3)
      else (replacementChar, b2 :: b3 :: rest3)
    else (replacementChar, b1 :: b2 :: b3 :: rest3)

def utf8Step (b0 : Nat) (rest : List Nat) : Char × List Nat :=
  if b0 < 0x80 then (Char.ofNat b0, rest)
  else if 0xC2 ≤ b0 && b0 ≤ 0xDF then utf8Step2 b0 rest
  else if 0xE0 ≤ b0 && b0 ≤ 0xEF then utf8Step3 b0 rest
  else if 0xF0 ≤ b0 && b0 ≤ 0xF4 then utf8Step4 b0 rest
  else (replacementChar, rest)

/-- Lossy UTF-8 decoding of a byte list: one scalar value (or replacement
character) per step.  The auxiliary fuel count (instantiated with the list
length, an upper bound on the number of steps, since every step consumes at
least one byte) keeps the recursion structural. -/
def utf8DecodeReplaceAux : Nat → List Nat → List Char
  | _, [] => []
  | 0, _ => []
  | fuel + 1, b0 :: rest =>
    (utf8Step b0 rest).1 :: utf8DecodeReplaceAux fuel (utf8Step b0 rest).2

/-- Lossy UTF-8 decoding, Python `bytes.decode("utf-8", errors="replace")`. -/
def utf8DecodeReplace (bs : List Nat) : List Char :=
  utf8DecodeReplaceAux bs.length bs

theorem utf8Step2_fst_ne (b0 : Nat) (rest : List Nat)
    (hB : (0xC2 ≤ b0 && b0 ≤ 0xDF) = true) :
    (utf8Step2 b0 rest).1 ≠ semicolonChar := by
  cases rest with
  | nil => simp [utf8Step2]; decide
  | cons b1 rest1 =>
    by_cases h : isContByte b1 = true
    · simp only [utf8Step2, if_pos h]
      exact charOfNat_ne_semicolon (code2_ne_semi b0 b1 hB)
    · simp only [utf8Step2, if_neg h]
      decide

theorem utf8Step3_fst_ne (b0 : Nat) (rest : List Nat)
    (hD : (0xE0 ≤ b0 && b0 ≤ 0xEF) = true) :
    (utf8Step3 b0 rest).1 ≠ semicolonChar := by
  cases rest with
  | nil => simp [utf8Step3]; decide
  | cons b1 rest1 =>
    cases rest1 with
    | nil => by_cases h : cont1Ok b0 b1 = true <;> simp [utf8Step3, h] <;> decide
    | cons b2 rest2 =>
      by_cases hE : cont1Ok b0 b1 = true
      · by_cases hF : isContByte b2 = true
        · simp only [utf8Step3, if_pos hE, if_pos hF]
          exact charOfNat_ne_semicolon (code3_ne_semi b0 b1 b2 hD hE)
        · simp only [utf8Step3, if_pos hE, if_neg hF]; decide
      · simp only [utf8Step3, if_neg hE]; decide

theorem utf8Step4_fst_ne (b0 : Nat) (rest : List Nat)
    (hG : (0xF0 ≤ b0 && b0 ≤ 0xF4) = true) :
    (utf8Step4 b0 rest).1 ≠ semicolonChar := by
  cases rest with
  | nil => simp [utf8Step4]; decide
  | cons b1 rest1 =>
    cases rest1 with
    | nil => by_cases h : cont1Ok b0 b1 = true <;> simp [utf8Step4, h] <;> decide
    | cons b2 rest2 =>
      cases rest2 with
      | nil =>
        by_cases hE : cont1Ok b0 b1 = true <;>
          by_cases hF : isContByte b2 = true <;> simp [utf8Step4, hE, hF] <;> decide
      | cons b3 rest3 =>
        by_cases hE : cont1Ok b0 b1 = true
        · by_cases hF : isContByte b2 = true
          · by_cases hH : isContByte b3 = true
            · simp only [utf8Step4, if_pos hE, if_pos hF, if_pos hH]
              exact charOfNat_ne_semicolon (code4_ne_semi b0 b1 b2 b3 hG hE)
            · simp only [utf8Step4, if_pos hE, if_pos hF, if_neg hH]; decide
          · simp only [utf8Step4, if_pos hE, if_neg hF]; decide
        · simp only [utf8Step4, if_neg hE]; decide

theorem utf8Step_fst_ne (b0 : Nat) (rest : List Nat) (hb0 : b0 ≠ 59) :
    (utf8Step b0 rest).1 ≠ semicolonChar := by
  unfold utf8Step
  by_cases hA : b0 < 0x80
  · simp only [if_pos hA]
    exact charOfNat_ne_semicolon hb0
  · by_cases hB : (0xC2 ≤ b0 && b0 ≤ 0xDF) = true
    · simp only [if_neg hA, if_pos hB]
      exact utf8Step2_fst_ne b0 rest hB
    · by_cases hD : (0xE0 ≤ b0 && b0 ≤ 0xEF) = true
      · simp only [if_neg hA, if_neg hB, if_pos hD]
        exact utf8Step3_fst_ne b0 rest hD
      · by_cases hG : (0xF0 ≤ b0 && b0 ≤ 0xF4) = true
        · simp only [if_neg hA, if_neg hB, if_neg hD, if_pos hG]
          exact utf8Step4_fst_ne b0 rest hG
        · simp only [if_neg hA, if_neg hB, if_neg hD, if_neg hG]
          decide

theorem utf8Step2_snd_suffix (b0 : Nat) (rest : List Nat) :
    (utf8Step2 b0 rest).2 <:+ rest := by
  cases rest with
  | nil => simp [utf8Step2]
  | cons b1 rest1 =>
    by_cases h : isContByte b1 = true <;> simp [utf8Step2, h]

theorem utf8Step3_snd_suffix (b0 : Nat) (rest : List Nat) :
    (utf8Step3 b0 rest).2 <:+ rest := by
  cases rest with
  | nil => simp [utf8Step3]
  | cons b1 rest1 =>
    cases rest1 with
    | nil =>
      by_cases h : cont1Ok b0 b1 = true <;> simp [utf8Step3, h]
    | cons b2 rest2 =>
      by_cases hE : cont1Ok b0 b1 = true
      · by_cases hF : isContByte b2 = true
        · simp only [utf8Step3, if_pos hE, if_pos hF]
          exact (List.suffix_cons b2 rest2).trans (List.suffix_cons b1 (b2 :: rest2))
        · simp only [utf8Step3, if_pos hE, if_neg hF]
          exact List.suffix_cons b1 (b2 :: rest2)
      · simp [utf8Step3, hE]

theorem utf8Step4_snd_suffix (b0 : Nat) (rest : List Nat) :
    (utf8Step4 b0 rest).2 <:+ rest := by
  cases rest with
  | nil => simp [utf8Step4]
  | cons b1 rest1 =>
    cases rest1 with
    | nil => by_cases h : cont1Ok b0 b1 = true <;> simp [utf8Step4, h]
    | cons b2 rest2 =>
      cases rest2 with
      | nil =>
        by_cases hE : cont1Ok b0 b1 = true <;>
          by_cases hF : isContByte b2 = true <;> simp [utf8Step4, hE, hF]
      | cons b3 rest3 =>
        by_cases hE : cont1Ok b0 b1 = true
        · by_cases hF : isContByte b2 = true
          · by_cases hH : isContByte b3 = true
            · simp only [utf8Step4, if_pos hE, if_pos hF, if_pos hH]
              exact ((List.suffix_cons b3 rest3).trans
                (List.suffix_cons b2 (b3 :: rest3))).trans
                (List.suffix_cons b1 (b2 :: b3 :: rest3))
            · simp only [utf8Step4, if_pos hE, if_pos hF, if_neg hH]
              exact (List.suffix_cons b2 (b3 :: rest3)).trans
                (List.suffix_cons b1 (b2 :: b3 :: rest3))
          · simp only [utf8Step4, if_pos hE, if_neg hF]
            exact List.suffix_cons b1 (b2 :: b3 :: rest3)
        · simp [utf8Step4, hE]

theorem utf8Step_snd_suffix (b0 : Nat) (rest : List Nat) :
    (utf8Step b0 rest).2 <:+ rest := by
  unfold utf8Step
  by_cases hA : b0 < 0x80
  · simp [hA]
  · by_cases hB : (0xC2 ≤ b0 && b0 ≤ 0xDF) = true
    · simp only [if_neg hA, if_pos hB]
      exact utf8Step2_snd_suffix b0 rest
    · by_cases hD : (0xE0 ≤ b0 && b0 ≤ 0xEF) = true
      · simp only [if_neg hA, if_neg hB, if_pos hD]
        exact utf8Step3_snd_suffix b0 rest
      · by_cases hG : (0xF0 ≤ b0 && b0 ≤ 0xF4) = true
        · simp only [if_neg hA, if_neg hB, if_neg hD, if_pos hG]
          exact utf8Step4_snd_suffix b0 rest
        · simp [hA, hB, hD, hG]

theorem not_mem_cons_of {x c : Char} {cs : List Char} (h1 : x ≠ c) (h2 : c ∉ cs) :
    c ∉ x :: cs := by
  intro hm
  rcases List.mem_cons.mp hm with h | h
  · exact h1 h.symm
  · exact h2 h

theorem semi_not_in_decode_aux :
    ∀ (fuel : Nat) (bs : List Nat), 59 ∉ bs →
      semicolonChar ∉ utf8DecodeReplaceAux fuel bs := by
  intro fuel
  induction fuel with
  | zero =>
    intro bs h
    cases bs with
    | nil => simp [utf8DecodeReplaceAux]
    | cons b0 rest => simp [utf8DecodeReplaceAux]
  | succ f ih =>
    intro bs h
    cases bs with
    | nil => simp [utf8DecodeReplaceAux]
    | cons b0 rest =>
      simp only [List.mem_cons, not_or] at h
      obtain ⟨hb0, hrest⟩ := h
      rw [utf8DecodeReplaceAux]
      exact not_mem_cons_of (utf8Step_fst_ne b0 rest (fun he => hb0 he.symm))
        (ih _ (fun hm => hrest ((utf8Step_snd_suffix b0 rest).mem hm)))

theorem semi_not_in_decode {bs : List Nat} (h : 59 ∉ bs) :
    semicolonChar ∉ utf8DecodeReplace bs :=
  semi_not_in_decode_aux bs.length bs h

/-! ## ICY stream reader (src/app.py lines 143-176)

The HTTP response is modelled as a list of headers plus the byte stream of the
body; `response.read(n)` takes `n` bytes off the front (fewer at end of
stream, exactly as Python file-like objects do).  The `while True` loop of
`get_mp3_stream_title` is modelled with an explicit fuel parameter: exhausting
the fuel stands for the loop still running.  Alongside the title, the model
returns the unread remainder of the body, which records how many bytes the
call consumed. -/

/-- The bytes of the ASCII marker `StreamTitle=` followed by an apostrophe
(codes 83 116 114 101 97 109 84 105 116 108 101 61 39), i.e. the Python
`needle`. -/
def needleBytes : List Nat := [83, 116, 114, 101, 97, 109, 84, 105, 116, 108, 101, 61, 39]

/-- One scan of a window buffer (src/app.py lines 166-171): find the needle,
take everything after it up to the first `;` byte (Python
`split(b";")[0]`), and decode lossily. -/
def scanWindow (buffer : List Nat) : Option String :=
  match firstOccur needleBytes buffer with
  | some i =>
    some (String.mk (utf8DecodeReplace
      ((buffer.drop (i + needleBytes.length)).takeWhile (fun b => b != 59))))
  | none => none

/-- An opened HTTP stream response: headers and body bytes. -/
structure StreamResponse where
  headers : List (String × String)
  body : List Nat

/-- Python `str.lower()` (character-wise; header names are ASCII). -/
def pyLower (s : String) : String := String.mk (s.data.map Char.toLower)

/-- Header scan of src/app.py lines 153-157: first header whose lowercased
name is `icy-metaint`. -/
def findHeaderMetaInt : List (String × String) → Option String
  | [] => none
  | (k, v) :: rest =>
    if pyLower k == "icy-metaint" then some v else findHeaderMetaInt rest

/-- Value of a nonempty all-digit character list. -/
def digitsValAux : Nat → List Char → Option Nat
  | acc, [] => some acc
  | acc, c :: rest =>
    if c.isDigit then digitsValAux (acc * 10 + (c.toNat - 48)) rest else none

/-- Digit-string value; `none` on the empty list or any non-digit. -/
def digitsVal : List Char → Option Nat
  | [] => none
  | l => digitsValAux 0 l

/-- Python `int(str)`: surrounding whitespace ignored, optional sign, decimal
digits; `none` models the `ValueError` (which src/app.py line 174 catches and
turns into a `None` result).  Underscored digit groups are not modelled. -/
def pyInt (s : String) : Option Int :=
  match (pyStrip s).data with
  | [] => none
  | c :: rest =>
    if c == '-' then (digitsVal rest).map (fun v => -(v : Int))
    else if c == '+' then (digitsVal rest).map (fun v => (v : Int))
    else (digitsVal (c :: rest)).map (fun v => (v : Int))

/-- The `while True` loop of src/app.py lines 162-172: discard `metaint` audio
bytes, read a window of up to `interval` bytes, scan it, return the title if
found, otherwise iterate.  Fuel exhaustion models the still-running loop. -/
def titleLoop (metaint interval : Nat) : Nat → List Nat → Option String × List Nat
  | 0, body => (none, body)
  | fuel + 1, body =>
    let body1 := body.drop metaint
    let buffer := body1.take interval
    let rest := body1.drop interval
    match scanWindow buffer with
    | some t => (some t, rest)
    | none => titleLoop metaint interval fuel rest

/-- `get_mp3_stream_title` of src/app.py lines 143-176.  A missing
`icy-metaint` header returns `None` before any body read; an unparsable value
raises `ValueError`, caught at line 174, also before any body read.  (A
negative `icy-metaint`, which no real server sends, is clamped to zero by
`Int.toNat` rather than modelling Python `read`-to-end.) -/
def get_mp3_stream_title (resp : StreamResponse) (interval : Nat) (fuel : Nat) :
    Option String × List Nat :=
  match findHeaderMetaInt resp.headers with
  | none => (none, resp.body)
  | some v =>
    match pyInt v with
    | none => (none, resp.body)
    | some m => titleLoop m.toNat interval fuel resp.body

/-! ## Database state and `get_radio_info` (src/app.py lines 259-320)

Rows mirror the SQLAlchemy models `SongHistory` and `LastPlayedSong`;
`played_at` is a timestamp in seconds (`Int`).  The SQL query
`order_by(played_at.desc()).limit(l).offset(o)` is modelled by a stable
insertion sort under the "later first" relation followed by `drop`/`take`. -/

/-- A `song_history` row. -/
structure SongHistory where
  radio_url : String
  artist : String
  song : String
  played_at : Int
deriving DecidableEq, Repr

/-- A `last_played_song` row (primary key `radio_url`). -/
structure LastPlayedSong where
  radio_url : String
  artist : String
  song : String
  played_at : Int
deriving DecidableEq, Repr

/-- The relational state touched by the endpoints. -/
structure DBState where
  history : List SongHistory
  last_played : List LastPlayedSong
deriving DecidableEq, Repr

/-- src/app.py line 35. -/
def MIN_HISTORY_INTERVAL : Int := 30

/-- src/app.py line 34. -/
def SONG_HISTORY_LIMIT : Nat := 5

/-- `db.query(LastPlayedSong).filter_by(radio_url=...).first()`. -/
def queryLastPlayed (db : DBState) (url : String) : Option LastPlayedSong :=
  db.last_played.find? (fun r => r.radio_url == url)

/-- `ORDER BY played_at DESC`: most recent first. -/
def playedAtDesc (a b : SongHistory) : Prop := b.played_at ≤ a.played_at

instance : DecidableRel playedAtDesc :=
  fun a b => inferInstanceAs (Decidable (b.played_at ≤ a.played_at))

/-- The history query shared by the endpoints:
`filter_by(radio_url).order_by(played_at.desc()).limit(lim).offset(off)`. -/
def queryHistoryDesc (db : DBState) (url : String) (lim off : Nat) : List SongHistory :=
  ((((db.history.filter (fun r => r.radio_url == url)).insertionSort
      playedAtDesc).drop off).take lim)

/-- The change/throttle condition of src/app.py lines 276-280:

```python
if (last_played_db is None
    or (artist, song) != (last_played_db.artist, last_played_db.song)
    and (datetime.utcnow() - last_played_db.played_at)
        > timedelta(seconds=MIN_HISTORY_INTERVAL)):
```
Python parses this as `A or (B and C)`. -/
def shouldRecordRadioInfo (last : Option LastPlayedSong) (artist song : String)
    (now : Int) : Bool :=
  match last with
  | none => true
  | some lp =>
    (artist != lp.artist || song != lp.song)
      && decide (now - lp.played_at > MIN_HISTORY_INTERVAL)

/-- The database write of src/app.py lines 281-292: append a `SongHistory` row
and insert or update the `LastPlayedSong` row, both stamped `now`
(`datetime.utcnow`, also the column default applied on insert). -/
def radioInfoRecord (db : DBState) (url artist song : String) (now : Int) : DBState :=
  let lastOpt := queryLastPlayed db url
  if shouldRecordRadioInfo lastOpt artist song now then
    { history := db.history ++ [⟨url, artist, song, now⟩],
      last_played :=
        match lastOpt with
        | none => db.last_played ++ [⟨url, artist, song, now⟩]
        | some _ =>
          db.last_played.map
            (fun r => if r.radio_url == url then ⟨url, artist, song, now⟩ else r) }
  else db

/-- Rendering of a Python `None`-or-string in an f-string. -/
def pyOptStr : Option String → String
  | some s => s
  | none => "None"

/-- FastAPI renders `str(HTTPException(code, detail))` as `code: detail`. -/
def strOfHTTPException (status : Nat) (detail : String) : String :=
  toString status ++ ": " ++ detail

/-- The body of the `/radio_info/` JSON response. -/
structure RadioInfoPayload where
  songtitle : String
  artist : Option String
  song : Option String
  song_history : List (String × String)
deriving DecidableEq, Repr

/-- Outcome of an endpoint call: a payload or an HTTP error. -/
inductive ApiOutcome (α : Type) where
  | ok (v : α)
  | httpError (status : Nat) (detail : String)
deriving DecidableEq, Repr

/-- `get_radio_info` of src/app.py lines 259-320.  A falsy title (Python
`if not title`, i.e. `None` or the empty string) raises a 404 inside the
`try`, which the `except Exception` handler rewraps into a 500; the database
is untouched on that path.  Otherwise the observation is recorded under the
change/throttle rule and the response is built from the re-queried
`LastPlayedSong` row and the five most recent history rows. -/
def get_radio_info (db : DBState) (radio_url : String) (resp : StreamResponse)
    (now : Int) (fuel : Nat) : DBState × ApiOutcome RadioInfoPayload :=
  match (get_mp3_stream_title resp 19200 fuel).1 with
  | none =>
    (db, .httpError 500 ("Error fetching stream: "
      ++ strOfHTTPException 404 "Failed to retrieve stream title"))
  | some title =>
    if title == "" then
      (db, .httpError 500 ("Error fetching stream: "
        ++ strOfHTTPException 404 "Failed to retrieve stream title"))
    else
      let a := extract_artist_and_song title
      let db' := radioInfoRecord db radio_url a.1 a.2 now
      let last := queryLastPlayed db' radio_url
      let hist := queryHistoryDesc db' radio_url SONG_HISTORY_LIMIT 0
      (db', .ok
        { songtitle := pyOptStr (last.map (fun r => r.song)) ++ " - "
            ++ pyOptStr (last.map (fun r => r.artist)),
          artist := last.map (fun r => r.artist),
          song := last.map (fun r => r.song),
          song_history := hist.map (fun r => (r.song, r.artist)) })

/-- C1.  Characterization of the change/throttle decision of src/app.py lines
276-280: an observation is recorded iff there is no prior `LastPlayedSong` row
for the station, or the observed pair differs from the stored pair and the
elapsed time strictly exceeds `MIN_HISTORY_INTERVAL` (30 seconds).  In
particular it is `true` with no prior row, `false` when the pair is unchanged
(any elapsed time), and `false` whenever the elapsed time is at most the
interval (the fourth conjunct ranges over every `now` at most
`played_at + MIN_HISTORY_INTERVAL`, the elapsed-time bound, via `min`). -/
theorem C1_change_throttle_rule (last : Option LastPlayedSong) (a s : String)
    (now : Int) (lp : LastPlayedSong) (d : Int) :
    (shouldRecordRadioInfo last a s now = true ↔
      (last = none ∨ ∃ p, last = some p
        ∧ ¬(a = p.artist ∧ s = p.song)
        ∧ now - p.played_at > MIN_HISTORY_INTERVAL))
    ∧ shouldRecordRadioInfo none a s now = true
    ∧ shouldRecordRadioInfo (some lp) lp.artist lp.song now = false
    ∧ shouldRecordRadioInfo (some lp) a s
        (lp.played_at + min d MIN_HISTORY_INTERVAL) = false := by
  refine ⟨?_, rfl, ?_, ?_⟩
  · cases last with
    | none => simp [shouldRecordRadioInfo]
    | some p =>
      simp only [shouldRecordRadioInfo, Bool.and_eq_true, Bool.or_eq_true,
        bne_iff_ne, ne_eq, decide_eq_true_eq, Option.some.injEq,
        reduceCtorEq, false_or]
      constructor
      · rintro ⟨hne, hgt⟩
        exact ⟨p, rfl, by tauto, hgt⟩
      · rintro ⟨q, hq, hne, hgt⟩
        cases hq
        exact ⟨by tauto, hgt⟩
  · simp [shouldRecordRadioInfo]
  · have hle : ¬(lp.played_at + min d MIN_HISTORY_INTERVAL - lp.played_at
        > MIN_HISTORY_INTERVAL) := by
      have : min d MIN_HISTORY_INTERVAL ≤ MIN_HISTORY_INTERVAL := min_le_right d _
      omega
    simp [shouldRecordRadioInfo, hle]

/-- A concrete `LastPlayedSong` row. -/
def lpEx : LastPlayedSong := ⟨"http://r.example/s", "Queen", "One Vision", 100⟩

/-- C1 witness: the characterization applied at concrete inputs; an unchanged
pair is never re-recorded. -/
theorem C1_change_throttle_rule_witness :
    shouldRecordRadioInfo (some lpEx) lpEx.artist lpEx.song 500 = false :=
  (C1_change_throttle_rule (some lpEx) "q" "r" 500 lpEx 0).2.2.1

theorem findHeaderMetaInt_eq_none (l : List (String × String))
    (h : ∀ kv ∈ l, pyLower kv.1 ≠ "icy-metaint") : findHeaderMetaInt l = none := by
  induction l with
  | nil => rfl
  | cons kv rest ih =>
    cases kv with
    | mk k v =>
      have hk : ¬((pyLower k == "icy-metaint") = true) := by
        simp only [beq_iff_eq]
        exact h (k, v) (List.mem_cons_self _ _)
      simp only [findHeaderMetaInt]
      rw [if_neg hk]
      exact ih (fun kv hm => h kv (List.mem_cons_of_mem _ hm))

/-- C4.  If no response header (scanned case-insensitively) is `icy-metaint`,
`get_mp3_stream_title` returns `None` with the body untouched — no body byte
is read, for any body and any fuel, so the call cannot block on the stream —
and `get_radio_info` leaves the database unchanged: no history entry is
written for the station. -/
theorem C4_no_metaint_immediate_none (resp : StreamResponse) (interval fuel : Nat)
    (db : DBState) (url : String) (now : Int)
    (h : ∀ kv ∈ resp.headers, pyLower kv.1 ≠ "icy-metaint") :
    get_mp3_stream_title resp interval fuel = (none, resp.body)
      ∧ (get_radio_info db url resp now fuel).1 = db := by
  have hh : findHeaderMetaInt resp.headers = none := findHeaderMetaInt_eq_none _ h
  constructor
  · simp [get_mp3_stream_title, hh]
  · simp [get_radio_info, get_mp3_stream_title, hh]

/-- A response with audio-only headers and a nonempty body. -/
def respNoMetaEx : StreamResponse :=
  ⟨[("Content-Type", "audio/mpeg"), ("Server", "Icecast")], [1, 2, 3, 4]⟩

/-- A nonempty database. -/
def dbEx : DBState :=
  ⟨[⟨"http://r.example/s", "Queen", "One Vision", 100⟩],
   [⟨"http://r.example/s", "Queen", "One Vision", 100⟩]⟩

/-- C4 witness at concrete inputs. -/
theorem C4_no_metaint_immediate_none_witness :
    get_mp3_stream_title respNoMetaEx 19200 7 = (none, respNoMetaEx.body)
      ∧ (get_radio_info dbEx "http://r.example/s" respNoMetaEx 200 7).1 = dbEx :=
  C4_no_metaint_immediate_none respNoMetaEx 19200 7 dbEx "http://r.example/s" 200
    (by decide)

/-! ## C5: behaviour of the scan loop when a window lacks the marker -/

/-- Stream body with `n` full marker-less cycles (metaint 1, window 20; byte
120 is opaque audio) followed by a cycle whose window carries
`StreamTitle=` apostrophe `A;`. -/
def c5body (n : Nat) : List Nat :=
  List.replicate (21 * n + 1) 120 ++ needleBytes ++ [65, 59]

/-- The corresponding response, advertising `icy-metaint: 1`. -/
def c5resp (n : Nat) : StreamResponse := ⟨[("icy-metaint", "1")], c5body n⟩

theorem c5body_succ (n : Nat) :
    c5body (n + 1) = 120 :: (List.replicate 20 120 ++ c5body n) := by
  unfold c5body
  rw [show 21 * (n + 1) + 1 = 1 + (20 + (21 * n + 1)) by ring]
  simp [List.replicate_add, List.replicate_succ, List.append_assoc]

theorem c5_step (n fuel : Nat) :
    titleLoop 1 20 (fuel + 1) (c5body (n + 1)) = titleLoop 1 20 fuel (c5body n) := by
  rw [c5body_succ]
  simp only [titleLoop, List.drop_succ_cons, List.drop_zero]
  rw [List.take_left' (by simp), List.drop_left' (by simp)]
  have hnone : scanWindow (List.replicate 20 120) = none := by decide
  rw [hnone]

theorem c5_unfold (n fuel : Nat) :
    get_mp3_stream_title (c5resp n) 20 fuel = titleLoop 1 20 fuel (c5body n) := rfl

/-- C5 (amended).  Each cycle discards exactly the advertised `icy-metaint`
audio bytes and scans a window of up to `windowSize` bytes, but a window
without the marker does **not** end the call with a "no title this cycle"
result: the loop goes on to the next cycle, for an unbounded number of
cycles.  Concretely, for every `n`, on a stream whose first `n` windows lack
the marker the call is still running after `n` cycles (`none` under fuel `n`)
and returns the title found in window `n + 1`. -/
theorem C5_amended_loop_continues_across_cycles (n : Nat) :
    (get_mp3_stream_title (c5resp n) 20 (n + 1)).1 = some (String.mk [Char.ofNat 65])
      ∧ (get_mp3_stream_title (c5resp n) 20 n).1 = none := by
  induction n with
  | zero => exact ⟨by decide, rfl⟩
  | succ k ih =>
    obtain ⟨ih1, ih2⟩ := ih
    constructor
    · rw [c5_unfold, c5_step, ← c5_unfold]
      exact ih1
    · rw [c5_unfold, c5_step, ← c5_unfold]
      exact ih2

/-- C5 counterexample.  On `c5resp 1` the first cycle's window contains no
marker, yet the call does not terminate with a "no title this cycle" result:
it continues into the second cycle and returns the title found there. -/
theorem C5_counterexample_no_per_cycle_termination :
    scanWindow (((c5resp 1).body.drop 1).take 20) = none
      ∧ (get_mp3_stream_title (c5resp 1) 20 2).1 = some (String.mk [Char.ofNat 65]) := by
  exact ⟨by decide, by decide⟩

/-! ## C10: shape of every returned title -/

theorem titleLoop_some_window (m iv : Nat) :
    ∀ (fuel : Nat) (body : List Nat) (t : String) (rest : List Nat),
      titleLoop m iv fuel body = (some t, rest) →
      ∃ k, scanWindow (((body.drop (k * (m + iv))).drop m).take iv) = some t := by
  intro fuel
  induction fuel with
  | zero =>
    intro body t rest h
    simp [titleLoop] at h
  | succ f ih =>
    intro body t rest h
    simp only [titleLoop] at h
    cases hs : scanWindow ((body.drop m).take iv) with
    | some t' =>
      rw [hs] at h
      simp only [Prod.mk.injEq, Option.some.injEq] at h
      obtain ⟨h1, h2⟩ := h
      subst h1
      exact ⟨0, by rw [Nat.zero_mul, List.drop_zero]; exact hs⟩
    | none =>
      rw [hs] at h
      obtain ⟨k, hk⟩ := ih _ t rest h
      refine ⟨k + 1, ?_⟩
      simp only [List.drop_drop] at hk ⊢
      rw [show (k + 1) * (m + iv) + m = m + iv + k * (m + iv) + m by ring]
      exact hk

/-- C10 (amended).  Whenever `get_mp3_stream_title` returns a title, some scan
window of the stream (cycle `k`) contains the needle at first index `i`, and
the title is exactly the lossy UTF-8 decoding of the window bytes after the
needle up to (exclusively) the first `;` byte — or up to the end of the
window if no `;` follows, Python `split(b";")[0]`.  Consequently the title
never contains `;`, and decoding is total.  (The title *can* contain the
marker itself; see the counterexample.) -/
theorem C10_amended_returned_title_shape (resp : StreamResponse)
    (interval fuel : Nat) (t : String) (rest : List Nat)
    (h : get_mp3_stream_title resp interval fuel = (some t, rest)) :
    ∃ v mv k i,
      findHeaderMetaInt resp.headers = some v
      ∧ pyInt v = some mv
      ∧ firstOccur needleBytes
          (((resp.body.drop (k * (mv.toNat + interval))).drop mv.toNat).take interval)
          = some i
      ∧ t = String.mk (utf8DecodeReplace
          (((((resp.body.drop (k * (mv.toNat + interval))).drop mv.toNat).take
                interval).drop (i + needleBytes.length)).takeWhile (fun b => b != 59)))
      ∧ semicolonChar ∉ t.data := by
  unfold get_mp3_stream_title at h
  split at h
  · exact absurd h (by simp)
  · rename_i v hv
    split at h
    · exact absurd h (by simp)
    · rename_i mv hm
      obtain ⟨k, hk⟩ := titleLoop_some_window mv.toNat interval fuel resp.body t rest h
      unfold scanWindow at hk
      split at hk
      · rename_i i hi
        simp only [Option.some.injEq] at hk
        refine ⟨v, mv, k, i, hv, hm, hi, hk.symm, ?_⟩
        rw [← hk]
        show semicolonChar ∉ utf8DecodeReplace _
        apply semi_not_in_decode
        intro hmem
        have hp := List.mem_takeWhile_imp hmem
        simp at hp
      · exact absurd hk (by simp)

/-- A stream whose metadata window contains the marker twice before the
terminating `;`: one audio byte, then `StreamTitle='StreamTitle='A;`. -/
def respDoubleMarker : StreamResponse :=
  ⟨[("icy-metaint", "1")], [0] ++ needleBytes ++ needleBytes ++ [65, 59]⟩

/-- The marker `StreamTitle='` as a string. -/
def needleString : String := String.mk (needleBytes.map Char.ofNat)

/-- The title the reader extracts from `respDoubleMarker`: the second marker
occurrence followed by `A`. -/
def titleWithMarkerEx : String := String.mk (needleBytes.map Char.ofNat ++ [Char.ofNat 65])

/-- C10 counterexample.  The returned title *can* contain the marker itself:
when a second `StreamTitle='` occurs between the first one and the
terminating `;`, everything after the first marker is returned, marker
included. -/
theorem C10_counterexample_title_contains_marker :
    (get_mp3_stream_title respDoubleMarker 40 1).1 = some titleWithMarkerEx
      ∧ (firstOccur needleString.data titleWithMarkerEx.data).isSome = true := by
  exact ⟨by decide, by decide⟩

/-- C10 witness: the amended shape theorem applied to the concrete
double-marker stream. -/
theorem C10_amended_returned_title_shape_witness :
    ∃ v mv k i,
      findHeaderMetaInt respDoubleMarker.headers = some v
      ∧ pyInt v = some mv
      ∧ firstOccur needleBytes
          (((respDoubleMarker.body.drop (k * (mv.toNat + 40))).drop mv.toNat).take 40)
          = some i
      ∧ titleWithMarkerEx = String.mk (utf8DecodeReplace
          (((((respDoubleMarker.body.drop (k * (mv.toNat + 40))).drop mv.toNat).take
                40).drop (i + needleBytes.length)).takeWhile (fun b => b != 59)))
      ∧ semicolonChar ∉ titleWithMarkerEx.data :=
  C10_amended_returned_title_shape respDoubleMarker 40 1 titleWithMarkerEx [] (by decide)

/-! ## Monitor supervisor: `start_monitoring` (src/old.py lines 169-191)

```python
@app.get("/start_monitoring/")
async def start_monitoring(radio_url, background_tasks, db):
    if not validators.url(radio_url):
        return JSONResponse({"error": "URL da radio invalida"}, status_code=400)
    if not any(task.get_name() == f"monitor_{radio_url}"
               for task in asyncio.all_tasks() if task.done() == False):
        background_tasks = BackgroundTasks()
        asyncio.create_task(
            monitor_radio(radio_url, background_tasks, db, db,
                          name=f"monitor_{radio_url}"))
        ...
```

The external `validators.url` check is passed in as a predicate.  A crucial
detail of the source is kept by the model: the keyword argument
`name=f"monitor_{radio_url}"` is an argument of `monitor_radio` (whose `name`
parameter is unused), **not** of `asyncio.create_task`, so the spawned task
keeps the automatic asyncio name `Task-<n>`; only `monitored_url` records
which station the coroutine polls. -/

/-- An asyncio task: its name, the station its `monitor_radio` coroutine was
given, and whether it is done. -/
structure TaskRec where
  name : String
  monitored_url : String
  done : Bool
deriving DecidableEq, Repr

/-- Process state seen by `start_monitoring`: the asyncio task set, the
`radio_stations` table, and asyncio's counter for automatic task names. -/
structure SupervisorState where
  tasks : List TaskRec
  stations : List String
  next_task_id : Nat
deriving DecidableEq, Repr

/-- The name `asyncio.create_task` gives a task when none is supplied. -/
def autoTaskName (id : Nat) : String := "Task-" ++ toString id

/-- The name the source *intends* to look for. -/
def monitorTaskName (url : String) : String := "monitor_" ++ url

/-- Result of a `start_monitoring` call. -/
inductive StartOutcome where
  | invalidUrl
  | started (url : String)
  | alreadyRunning (url : String)
deriving DecidableEq, Repr

/-- `start_monitoring` of src/old.py lines 169-191 with the URL validator
passed in for the external `validators.url`. -/
def start_monitoring (validate : String → Bool) (st : SupervisorState)
    (radio_url : String) : SupervisorState × StartOutcome :=
  if !(validate radio_url) then (st, .invalidUrl)
  else if !(st.tasks.any (fun t => t.name == monitorTaskName radio_url && !t.done)) then
    let newTask : TaskRec := ⟨autoTaskName st.next_task_id, radio_url, false⟩
    let stations' :=
      if st.stations.contains radio_url then st.stations
      else st.stations ++ [radio_url]
    ({ tasks := st.tasks ++ [newTask], stations := stations',
       next_task_id := st.next_task_id + 1 }, .started radio_url)
  else (st, .alreadyRunning radio_url)

/-- The live (not done) monitor tasks for a station. -/
def liveMonitorsFor (st : SupervisorState) (url : String) : List TaskRec :=
  st.tasks.filter (fun t => t.monitored_url == url && !t.done)

/-- A validator accepting everything (the URLs below are well-formed). -/
def acceptAll : String → Bool := fun _ => true

/-- The supervisor state after two consecutive `start_monitoring` calls for
the same URL, starting from an empty task set. -/
def doubleStartState : SupervisorState :=
  (start_monitoring acceptAll
    (start_monitoring acceptAll ⟨[], [], 1⟩ "http://r.example/s").1
    "http://r.example/s").1

/-- C2.  Calling `start_monitoring` twice in quick succession for the same
(valid) URL spawns **two** live monitor tasks and reports "started" both
times: the `task.get_name() == f"monitor_{radio_url}"` check never matches
because the `name=` keyword went to `monitor_radio`, which ignores it, so the
tasks carry the automatic names `Task-1`, `Task-2`. -/
theorem C2_double_start_spawns_second_monitor :
    (liveMonitorsFor doubleStartState "http://r.example/s").length = 2
      ∧ (start_monitoring acceptAll
          (start_monitoring acceptAll ⟨[], [], 1⟩ "http://r.example/s").1
          "http://r.example/s").2 = .started "http://r.example/s" := by
  exact ⟨by decide, by decide⟩

/-- C6.  Whenever the URL validator rejects the input, `start_monitoring`
returns the 400 `invalidUrl` response and performs no side effect: no task is
spawned and no station row is written — the state is returned unchanged. -/
theorem C6_invalid_url_no_side_effect (validate : String → Bool)
    (st : SupervisorState) (url : String) (h : validate url = false) :
    start_monitoring validate st url = (st, .invalidUrl) := by
  unfold start_monitoring
  rw [h]
  rfl

/-- A validator rejecting everything (for the concrete witness). -/
def rejectAll : String → Bool := fun _ => false

/-- C6 witness: the rejection path at a concrete malformed input and state. -/
theorem C6_invalid_url_no_side_effect_witness :
    start_monitoring rejectAll ⟨[], [], 1⟩ "not a url"
      = (⟨[], [], 1⟩, .invalidUrl) :=
  C6_invalid_url_no_side_effect rejectAll ⟨[], [], 1⟩ "not a url" rfl

/-! ## One-shot endpoints (src/app.py lines 205-256)

The external iTunes collaborators are passed in as functions: `get_album_art`
returns `Option String` (it catches its own request errors and returns
`None`), `fetch_itunes_track_details` returns an optional details payload of
some type `δ` (the flow never inspects it). -/

/-- Result of `/get_stream_title/`: the JSON payload or a `JSONResponse`
error. -/
inductive TitleEndpointResult where
  | ok (artist song : String) (art : Option String)
  | jsonError (msg : String) (status : Nat)
deriving DecidableEq, Repr

/-- `get_stream_title` of src/app.py lines 205-226.  Python `if title:` is
falsy for both `None` and the empty string. -/
def get_stream_title (resp : StreamResponse) (interval fuel : Nat)
    (album_art : String → String → Option String) : TitleEndpointResult :=
  match (get_mp3_stream_title resp interval fuel).1 with
  | some title =>
    if title != "" then
      let a := extract_artist_and_song title
      .ok a.1 a.2 (album_art a.1 a.2)
    else .jsonError "Failed to retrieve stream title" 404
  | none => .jsonError "Failed to retrieve stream title" 404

/-- `get_stream_details` of src/app.py lines 229-256.  Both
`HTTPException(404, ...)` raises inside the `try` are caught by the
`except Exception` clause and re-raised as a 500 whose detail embeds
`str(e)`. -/
def get_stream_details {δ : Type} (resp : StreamResponse) (interval fuel : Nat)
    (lookup : String → String → Option δ) : ApiOutcome δ :=
  match (get_mp3_stream_title resp interval fuel).1 with
  | none =>
    .httpError 500 ("Error fetching stream: "
      ++ strOfHTTPException 404 "Failed to retrieve stream title")
  | some title =>
    if title == "" then
      .httpError 500 ("Error fetching stream: "
        ++ strOfHTTPException 404 "Failed to retrieve stream title")
    else
      let a := extract_artist_and_song title
      match lookup a.1 a.2 with
      | none =>
        .httpError 500 ("Error fetching stream: "
          ++ strOfHTTPException 404 "Track details not found")
      | some d => .ok d

/-- C7 (amended).  For `/get_stream_title/` the claim holds: whatever the
album-art lookup returns — in particular `none` on failure or an empty result
— the response still carries the extracted artist and song, with the art
field merely the lookup result.  For `/get_stream_details/`, however, a
failed or empty track-details lookup aborts the request: the endpoint raises
404 "Track details not found", rewrapped by its own handler into a 500, and
no artist/song is returned. -/
theorem C7_amended_lookup_failure_handling (resp : StreamResponse)
    (interval fuel : Nat) (t : String) (rest : List Nat) (δ : Type)
    (album_art : String → String → Option String)
    (lookup : String → String → Option δ)
    (h : get_mp3_stream_title resp interval fuel = (some t, rest))
    (hne : t ≠ "") (hl : ∀ a s, lookup a s = none) :
    get_stream_title resp interval fuel album_art
        = .ok (extract_artist_and_song t).1 (extract_artist_and_song t).2
            (album_art (extract_artist_and_song t).1 (extract_artist_and_song t).2)
      ∧ get_stream_details resp interval fuel lookup
        = .httpError 500 ("Error fetching stream: "
            ++ strOfHTTPException 404 "Track details not found") := by
  have h1 : (get_mp3_stream_title resp interval fuel).1 = some t := by rw [h]
  constructor
  · simp only [get_stream_title, h1]
    rw [if_pos (by simpa using bne_iff_ne.mpr hne)]
  · simp only [get_stream_details, h1]
    rw [if_neg (by simpa using hne)]
    simp only [hl]

/-- A stream carrying the title `Queen - X`: one audio byte, the needle, the
ASCII bytes of `Queen - X`, then `;`. -/
def respQueenEx : StreamResponse :=
  ⟨[("icy-metaint", "1")],
   [0] ++ needleBytes ++ [81, 117, 101, 101, 110, 32, 45, 32, 88] ++ [59]⟩

/-- C7 witness: at the concrete stream `respQueenEx` with failing lookups,
`/get_stream_title/` still returns (Queen, X) with no art, while
`/get_stream_details/` returns the 500 error. -/
theorem C7_amended_lookup_failure_handling_witness :
    get_stream_title respQueenEx 40 1 (fun _ _ => none)
        = .ok (extract_artist_and_song "Queen - X").1
            (extract_artist_and_song "Queen - X").2 none
      ∧ get_stream_details respQueenEx 40 1 (fun _ _ => (none : Option Unit))
        = .httpError 500 ("Error fetching stream: "
            ++ strOfHTTPException 404 "Track details not found") :=
  C7_amended_lookup_failure_handling respQueenEx 40 1 "Queen - X" [] Unit
    (fun _ _ => none) (fun _ _ => none) (by decide) (by decide) (fun _ _ => rfl)

/-- C7 counterexample.  At `respQueenEx` the title and (artist, song) are
extracted successfully, yet with an empty track-details lookup
`/get_stream_details/` aborts with an error instead of returning a response
carrying the artist and song. -/
theorem C7_counterexample_details_abort_on_lookup_failure :
    (get_mp3_stream_title respQueenEx 40 1).1 = some "Queen - X"
      ∧ extract_artist_and_song "Queen - X" = ("Queen", "X")
      ∧ get_stream_details respQueenEx 40 1 (fun _ _ => (none : Option Unit))
        = .httpError 500 ("Error fetching stream: "
            ++ strOfHTTPException 404 "Track details not found") := by
  exact ⟨by decide, by decide, by decide⟩

/-! ## History read-back (src/old.py lines 224-247) and the C8 round trip -/

/-- `get_radio_history` of src/old.py lines 224-247: paginated per-station
history, most recent first; page `p` skips `(p-1)*limit` rows.  Rows are
projected to (artist, song, played_at) as in the JSON response. -/
def get_radio_history (db : DBState) (radio_url : String) (limit page : Nat) :
    List (String × String × Int) :=
  (queryHistoryDesc db radio_url limit ((page - 1) * limit)).map
    (fun r => (r.artist, r.song, r.played_at))

/-- One observation of a station at a point in time, fed to the
`get_radio_info` recording logic. -/
structure TimedObs where
  url : String
  artist : String
  song : String
  time : Int
deriving DecidableEq, Repr

/-- Run the src/app.py recording step over a sequence of observations. -/
def recordAll (db : DBState) : List TimedObs → DBState
  | [] => db
  | o :: rest => recordAll (radioInfoRecord db o.url o.artist o.song o.time) rest

/-- The empty database. -/
def emptyDB : DBState := ⟨[], []⟩

theorem radioInfoRecord_history (db : DBState) (url a s : String) (now : Int) :
    (radioInfoRecord db url a s now).history = db.history
      ∨ (radioInfoRecord db url a s now).history = db.history ++ [⟨url, a, s, now⟩] := by
  unfold radioInfoRecord
  by_cases h : shouldRecordRadioInfo (queryLastPlayed db url) a s now = true
  · rw [if_pos h]
    right
    rfl
  · rw [if_neg h]
    left
    rfl

theorem recordAll_pairwise : ∀ (obs : List TimedObs) (db : DBState),
    db.history.Pairwise (fun x y => x.played_at < y.played_at) →
    (∀ r ∈ db.history, ∀ o ∈ obs, r.played_at < o.time) →
    (obs.map (fun o => o.time)).Pairwise (· < ·) →
    (recordAll db obs).history.Pairwise (fun x y => x.played_at < y.played_at) := by
  intro obs
  induction obs with
  | nil =>
    intro db h1 _ _
    exact h1
  | cons o rest ih =>
    intro db h1 h2 h3
    simp only [recordAll]
    rcases radioInfoRecord_history db o.url o.artist o.song o.time with he | he
    · apply ih
      · rw [he]; exact h1
      · rw [he]
        intro r hr o' ho'
        exact h2 r hr o' (List.mem_cons_of_mem o ho')
      · simp only [List.map_cons] at h3
        exact h3.of_cons
    · apply ih
      · rw [he]
        apply List.pairwise_append.mpr
        refine ⟨h1, List.pairwise_singleton .., ?_⟩
        intro x hx y hy
        rw [List.mem_singleton] at hy
        subst hy
        exact h2 x hx o (List.mem_cons_self o rest)
      · rw [he]
        intro r hr o' ho'
        rcases List.mem_append.mp hr with hr | hr
        · exact h2 r hr o' (List.mem_cons_of_mem o ho')
        · rw [List.mem_singleton] at hr
          subst hr
          simp only [List.map_cons] at h3
          exact List.rel_of_pairwise_cons h3 (List.mem_map_of_mem _ ho')
      · simp only [List.map_cons] at h3
        exact h3.of_cons

theorem orderedInsert_all_lt (x : SongHistory) :
    ∀ (m : List SongHistory), (∀ y ∈ m, ¬ playedAtDesc x y) →
      m.orderedInsert playedAtDesc x = m ++ [x] := by
  intro m
  induction m with
  | nil => intro _; rfl
  | cons y m ih =>
    intro h
    rw [List.orderedInsert, if_neg (h y (List.mem_cons_self y m))]
    rw [ih (fun z hz => h z (List.mem_cons_of_mem y hz))]
    rfl

theorem insertionSort_desc_of_ascending :
    ∀ (l : List SongHistory),
      l.Pairwise (fun x y => x.played_at < y.played_at) →
      l.insertionSort playedAtDesc = l.reverse := by
  intro l
  induction l with
  | nil => simp
  | cons x xs ih =>
    intro h
    rw [List.insertionSort, ih h.of_cons]
    rw [orderedInsert_all_lt x xs.reverse ?_, List.reverse_cons]
    intro y hy
    rw [List.mem_reverse] at hy
    have hlt := List.rel_of_pairwise_cons h hy
    unfold playedAtDesc
    omega

/-- C8.  Round trip: record any sequence of observations (at strictly
increasing times) through the src/app.py recording logic, then read the
station's history back with `limit = N` (page 1).  The result is the last `N`
recorded rows for that station in descending `played_at` order — the
insertion order reversed, most recent first. -/
theorem C8_history_roundtrip (obs : List TimedObs) (url : String) (N : Nat)
    (h : (obs.map (fun o => o.time)).Pairwise (· < ·)) :
    get_radio_history (recordAll emptyDB obs) url N 1
      = (((recordAll emptyDB obs).history.filter
            (fun r => r.radio_url == url)).reverse.take N).map
          (fun r => (r.artist, r.song, r.played_at)) := by
  have hp : (recordAll emptyDB obs).history.Pairwise
      (fun x y => x.played_at < y.played_at) :=
    recordAll_pairwise obs emptyDB (by simp [emptyDB]) (by simp [emptyDB]) h
  have hf : ((recordAll emptyDB obs).history.filter
      (fun r => r.radio_url == url)).Pairwise
      (fun x y => x.played_at < y.played_at) := hp.filter _
  unfold get_radio_history queryHistoryDesc
  rw [insertionSort_desc_of_ascending _ hf]
  norm_num

/-- Three observations of one station at strictly increasing times. -/
def obsEx : List TimedObs :=
  [⟨"http://r.example/s", "A", "S1", 0⟩,
   ⟨"http://r.example/s", "B", "S2", 100⟩,
   ⟨"http://r.example/s", "C", "S3", 200⟩]

/-- C8 witness at a concrete recorded sequence with `N = 2`. -/
theorem C8_history_roundtrip_witness :
    get_radio_history (recordAll emptyDB obsEx) "http://r.example/s" 2 1
      = (((recordAll emptyDB obsEx).history.filter
            (fun r => r.radio_url == "http://r.example/s")).reverse.take 2).map
          (fun r => (r.artist, r.song, r.played_at)) :=
  C8_history_roundtrip obsEx "http://r.example/s" 2 (by decide)
